import Mathlib

/-!
Verification development for the Electronic Carillon Bell Chime Scheduler
(src/Carillon.py). The definitions below are a shallow embedding of the
schedule data model, the rule-matching test made by the playout thread, the
editor's event construction and the schedule-editing commands of main,
together with theorems settling the specified properties.
-/

namespace Carillon

/-- Base path prepended to user given file names (Carillon.py line 23). -/
def file_path : String := "/home/dave/Carillon/"

/-- One scheduled playout event, mirroring the seven-element event list built
in main (Carillon.py lines 216-223): a fixed date string (empty when a
weekday range is used), start and end weekday numbers (0..6 from day_dict, or
8 as the disabling sentinel set for fixed-date events at line 113), start and
end hours, a minute, and the sound field, holding a file name or the Strike
keyword exactly as the user typed it (line 223 appends the raw field). -/
structure Rule where
  fixedDate : String
  startDay : Nat
  endDay : Nat
  startHour : Nat
  endHour : Nat
  minute : Nat
  sound : String
deriving DecidableEq

/-- The facets of now() that the playout scan reads: the date string from
strftime of x, the weekday number from strftime of w, the hour and the
minute (Carillon.py lines 299-317). -/
structure Timestamp where
  dateStr : String
  weekday : Nat
  hour : Nat
  minute : Nat
deriving DecidableEq

/-- Decision made by the playout scan for one event (Carillon.py lines
299-318): each clause mirrors one continue test of the for loop, in source
order, and the event is played exactly when no test fires. Note the weekday
tests only apply when the respective stored day number is below 8. -/
def isDue (r : Rule) (t : Timestamp) : Bool :=
  if r.fixedDate ≠ "" ∧ t.dateStr ≠ r.fixedDate then false
  else if r.startDay < 8 ∧ t.weekday < r.startDay then false
  else if r.endDay < 8 ∧ t.weekday > r.endDay then false
  else if t.hour < r.startHour then false
  else if t.hour > r.endHour then false
  else if t.minute ≠ r.minute then false
  else true

/-- Strike hour computation (Carillon.py lines 322-325): the current hour mod
12, with 0 then replaced by 12. -/
def strikeHour (h : Nat) : Nat :=
  if h % 12 = 0 then 12 else h % 12

/-- File handed to playsound for a due event (Carillon.py lines 321-331): the
sound field equal to the exact string Strike selects the numbered strike file
for the current hour; any other sound field is played as a file named after
it with the path prepended and the type appended. -/
def soundFile (r : Rule) (hour : Nat) : String :=
  if r.sound = "Strike" then
    file_path ++ "Strike" ++ toString (strikeHour hour) ++ ".mp3"
  else file_path ++ r.sound ++ ".mp3"

/-- Python list index resolution, as used by pop and index assignment: a
negative index counts from the end of the list, and the resolved index must
land inside the list, else an IndexError is raised (modelled as none). -/
def pyIndex (k : Int) (len : Nat) : Option Nat :=
  let j := if k < 0 then k + len else k
  if 0 ≤ j ∧ j < (len : Int) then some j.toNat else none

/-- Deletion command of main (Carillon.py lines 76-85): a bare line number
pops entry line_number - 1 when the schedule is non-empty. A failing pop
(reported as No line to delete) and the silent empty-schedule case both leave
the schedule unchanged and are modelled as none. -/
def deleteAt (lineNumber : Nat) (s : List Rule) : Option (List Rule) :=
  if s.length > 0 then
    (pyIndex ((lineNumber : Int) - 1) s.length).map s.eraseIdx
  else none

/-- Insert-or-replace of a fully parsed event (Carillon.py lines 225-229):
append when line_number - 1 is at least the schedule length, otherwise assign
at that index with Python index semantics; an out-of-range assignment raises
and is swallowed by the catch-all at line 232, leaving the schedule
unchanged. -/
def upsertAt (lineNumber : Nat) (r : Rule) (s : List Rule) : List Rule :=
  if (s.length : Int) ≤ (lineNumber : Int) - 1 then s ++ [r]
  else ((pyIndex ((lineNumber : Int) - 1) s.length).map (fun j => s.set j r)).getD s

/-- Splitting of a character list at a separator character, modelling the
Python str.split used on the hour field (Carillon.py line 137 and 141). -/
def splitOnChar (c : Char) : List Char → List (List Char)
  | [] => [[]]
  | a :: rest =>
    let r := splitOnChar c rest
    if a = c then [] :: r
    else (a :: r.headD []) :: r.tail

/-- String form of splitOnChar: Python str.split with a one-character
separator. -/
def splitField (c : Char) (s : String) : List String :=
  (splitOnChar c s.data).map fun l => (⟨l⟩ : String)

/-- Accumulating decimal digit parse of a character list; none on the first
non-digit character. -/
def parseNatAux : List Char → Nat → Option Nat
  | [], acc => some acc
  | c :: rest, acc =>
    if '0' ≤ c ∧ c ≤ '9' then
      parseNatAux rest (acc * 10 + (c.toNat - Char.toNat '0'))
    else none

/-- Python isnumeric check followed by int conversion on a digit string:
some value exactly when the string is non-empty and all decimal digits. -/
def parseNat (s : String) : Option Nat :=
  if s.data = [] then none else parseNatAux s.data 0

/-- Python int conversion for a possibly signed decimal string, as the minute
field conversion at Carillon.py line 168. -/
def parseInt (s : String) : Option Int :=
  match s.data with
  | '-' :: rest =>
    if rest = [] then none else (parseNatAux rest 0).map fun n => -(n : Int)
  | l => if l = [] then none else (parseNatAux l 0).map fun n => (n : Int)

/-- ASCII lower-casing of one character, modelling str.lower on the keyword
test inputs. -/
def lowerChar (c : Char) : Char :=
  if 'A' ≤ c ∧ c ≤ 'Z' then Char.ofNat (c.toNat + 32) else c

/-- ASCII lower-casing of a string: Python str.lower (Carillon.py lines 180
and 196). -/
def lowerStr (s : String) : String :=
  ⟨s.data.map lowerChar⟩

/-- Boolean test that the first character list is a prefix of the second. -/
def startsWithChars : List Char → List Char → Bool
  | [], _ => true
  | _ :: _, [] => false
  | a :: as, b :: bs => a == b && startsWithChars as bs

/-- Python str.endswith (Carillon.py line 196), via reversed character
lists. -/
def endsWithStr (s suffixStr : String) : Bool :=
  startsWithChars suffixStr.data.reverse s.data.reverse

/-- Event construction from the third, fourth and fifth user input fields
(Carillon.py lines 136-223), given the already parsed date and weekday fields
of lines 93-134. none models a break that discards the input, or an exception
reaching the catch-all at line 232; some is the fully built event. The Python
string primitives split, isnumeric with int, lower and endswith are modelled
by splitField, parseNat, parseInt, lowerStr and endsWithStr above. Two
faithful oddities: the end-hour range test at lines 162-163 prints an error
but has no break, so an out-of-range end hour falls through into the built
event; and the Strike keyword branch at lines 180-193 checks the twelve
strike files but its break only leaves that inner file-check loop, so the
input is kept whether or not those files are readable. In both branches the
stored sound field is the original user string (line 223 appends file, not
file_name). -/
def buildEvent (date : String) (startDay endDay : Nat)
    (hoursField minuteField fileField : String)
    (readable : String → Bool) : Option Rule :=
  let hparts := splitField '-' hoursField
  let startHourStr := hparts.headD ""
  let endHourStr := if hparts.length = 2 then hparts.getD 1 "" else startHourStr
  if hparts.length > 2 then none
  else
    match parseNat startHourStr with
    | none => none
    | some startHour =>
      if startHour > 23 then none
      else
        match parseNat endHourStr with
        | none => none
        | some endHour =>
          match parseInt minuteField with
          | none => none
          | some minute =>
            if minute < 0 ∨ minute > 59 then none
            else
              if lowerStr fileField = "strike" then
                some ⟨date, startDay, endDay, startHour, endHour, minute.toNat, fileField⟩
              else
                let fileName := if endsWithStr (lowerStr fileField) ".mp3"
                  then file_path ++ fileField
                  else file_path ++ fileField ++ ".mp3"
                if readable fileName then
                  some ⟨date, startDay, endDay, startHour, endHour, minute.toNat, fileField⟩
                else none

/-- One tick of the playout scan (Carillon.py lines 292-345), iterating
indices j, j+1, ... with fuel iterations remaining; range(0, len(schedule))
fixes the iteration count at loop entry. Each due event is played in order;
the try wraps the whole for loop, so a failing playsound call transfers
control to the except handler at lines 339-345, which reports the 1-based
position and the event, pops index j, and leaves the loop for this tick.
canPlay models whether playsound succeeds on a given file. Returns the played
files in order, the reported failure (position and event) if any, and the
schedule after the tick. -/
def scanAux (t : Timestamp) (canPlay : String → Bool) (s : List Rule) :
    Nat → Nat → List String × Option (Nat × Rule) × List Rule
  | _, 0 => ([], none, s)
  | j, fuel + 1 =>
    if hj : j < s.length then
      if isDue (s.get ⟨j, hj⟩) t then
        if canPlay (soundFile (s.get ⟨j, hj⟩) t.hour) then
          (soundFile (s.get ⟨j, hj⟩) t.hour :: (scanAux t canPlay s (j + 1) fuel).1,
           (scanAux t canPlay s (j + 1) fuel).2.1,
           (scanAux t canPlay s (j + 1) fuel).2.2)
        else ([], some (j + 1, s.get ⟨j, hj⟩), s.eraseIdx j)
      else scanAux t canPlay s (j + 1) fuel
    else ([], none, s)

/-- One full tick of the playout thread after minute synchronization
(Carillon.py lines 292-345): scan the whole schedule from index 0. -/
def playTick (t : Timestamp) (canPlay : String → Bool) (s : List Rule) :
    List String × Option (Nat × Rule) × List Rule :=
  scanAux t canPlay s 0 s.length

/-- Sound files of the due events with indices in j..i-1 of the schedule, in
order: what a failure-free scan of that index range plays. -/
def duePlaysBetween (t : Timestamp) (s : List Rule) (j i : Nat) : List String :=
  (((s.drop j).take (i - j)).filter (fun r => isDue r t)).map
    (fun r => soundFile r t.hour)

/-- Reads performed by the playout for loop when the shared schedule list may
be mutated by the editor thread between iterations (Carillon.py line 294):
range(0, len(schedule)) fixes the iteration count n at loop entry, and
iteration i then indexes the shared list as it stands at that moment, given
by states i; there is no copy of the list. -/
def liveScanReads (states : Nat → List Rule) (n : Nat) : List (Option Rule) :=
  (List.range n).map fun i => (states i).get? i

/-- Default schedule entry playing Hour at minute 59 (Carillon.py line 28),
used as a concrete test fixture. -/
def hourRule : Rule := ⟨"", 0, 6, 0, 23, 59, "Hour"⟩

/-- Default schedule entry striking the hour (Carillon.py line 29), used as a
concrete test fixture. -/
def strikeRule : Rule := ⟨"", 0, 6, 0, 23, 0, "Strike"⟩

/-- Unfolding lemma for pyIndex with its let binding zeta-reduced. -/
theorem pyIndex_spec (k : Int) (len : Nat) :
    pyIndex k len =
      if 0 ≤ (if k < 0 then k + len else k) ∧
          (if k < 0 then k + len else k) < (len : Int)
      then some (if k < 0 then k + len else k).toNat
      else none := rfl

/-- C8: the strike expansion is the 12-hour clock count: always between 1 and
12 and congruent to the hour mod 12, with hours 0 and 12 both striking 12 and
hour 13 striking 1, so the resolved strike files are Strike12.mp3 for hours 0
and 12 and Strike1.mp3 for hour 13. -/
theorem strikeHour_twelve_hour_clock :
    strikeHour 0 = 12 ∧ strikeHour 12 = 12 ∧ strikeHour 13 = 1 ∧
    soundFile strikeRule 0 = file_path ++ "Strike12.mp3" ∧
    soundFile strikeRule 13 = file_path ++ "Strike1.mp3" ∧
    (∀ h : Nat, 1 ≤ strikeHour h ∧ strikeHour h ≤ 12 ∧
      strikeHour h % 12 = h % 12) := by
  refine ⟨rfl, rfl, rfl, rfl, rfl, fun h => ?_⟩
  unfold strikeHour
  split_ifs with hm <;> omega

/-- C1 counterexample: an event with an empty date field and both weekday
fields at the sentinel 8 is due at a matching hour and minute, so isDue is
not false at every timestamp for such a rule. -/
theorem isDue_sentinel_not_never_matching :
    (⟨"", 8, 8, 0, 23, 0, "Hour"⟩ : Rule).fixedDate = "" ∧
    (⟨"", 8, 8, 0, 23, 0, "Hour"⟩ : Rule).startDay = 8 ∧
    (⟨"", 8, 8, 0, 23, 0, "Hour"⟩ : Rule).endDay = 8 ∧
    isDue ⟨"", 8, 8, 0, 23, 0, "Hour"⟩ ⟨"07/04/21", 0, 12, 0⟩ = true := by
  refine ⟨rfl, rfl, rfl, rfl⟩

/-- C1 amended: with an empty date field and both weekday fields at the
sentinel 8, the weekday tests are skipped entirely, so the event is due
exactly when the hour lies in the inclusive hour range and the minute
matches: outside a fixed-date rule the sentinel is always-matching on days,
not never-matching. -/
theorem isDue_sentinel_skips_weekday (r : Rule) (t : Timestamp)
    (hd : r.fixedDate = "") (h1 : r.startDay = 8) (h2 : r.endDay = 8) :
    isDue r t = true ↔
      (r.startHour ≤ t.hour ∧ t.hour ≤ r.endHour ∧ t.minute = r.minute) := by
  simp only [isDue, hd, h1, h2]
  split_ifs <;> simp_all

/-- C1 amended witness at a concrete sentinel rule and timestamp. -/
theorem isDue_sentinel_skips_weekday_witness :
    isDue ⟨"", 8, 8, 9, 17, 30, "Half"⟩ ⟨"", 2, 10, 30⟩ = true ↔
      (9 ≤ 10 ∧ 10 ≤ 17 ∧ 30 = 30) :=
  isDue_sentinel_skips_weekday ⟨"", 8, 8, 9, 17, 30, "Half"⟩ ⟨"", 2, 10, 30⟩
    rfl rfl rfl

/-- C2: for an event with no fixed date and weekday range a..b, a ≤ b ≤ 6,
isDue holds exactly when the weekday lies in the inclusive weekday range, the
hour lies in the inclusive hour range, and the minute matches. -/
theorem isDue_weekday_range (r : Rule) (t : Timestamp)
    (hd : r.fixedDate = "") (hab : r.startDay ≤ r.endDay) (hb : r.endDay ≤ 6) :
    isDue r t = true ↔
      (r.startDay ≤ t.weekday ∧ t.weekday ≤ r.endDay ∧
       r.startHour ≤ t.hour ∧ t.hour ≤ r.endHour ∧ t.minute = r.minute) := by
  have h1 : r.startDay < 8 := by omega
  have h2 : r.endDay < 8 := by omega
  simp only [isDue, hd]
  split_ifs <;> simp_all

/-- C2 witness: the daily nine o'clock bell of scenario A is due on Sunday at
nine sharp. -/
theorem isDue_weekday_range_witness :
    isDue ⟨"", 0, 6, 9, 9, 0, "Bell"⟩ ⟨"", 0, 9, 0⟩ = true ↔
      (0 ≤ 0 ∧ 0 ≤ 6 ∧ 9 ≤ 9 ∧ 9 ≤ 9 ∧ 0 = 0) :=
  isDue_weekday_range ⟨"", 0, 6, 9, 9, 0, "Bell"⟩ ⟨"", 0, 9, 0⟩
    rfl (by decide) (by decide)

/-- C10: a delete command with line number 0 on a non-empty schedule does not
fail: line_number - 1 is the Python index -1, which pops the last entry, so
the schedule loses exactly its final rule and shrinks by one. -/
theorem deleteAt_zero_pops_last (s : List Rule) (h : s ≠ []) :
    deleteAt 0 s = some s.dropLast ∧ s.dropLast.length + 1 = s.length := by
  have hlen : 0 < s.length := List.length_pos.mpr h
  have hpy : pyIndex (((0 : Nat) : Int) - 1) s.length = some (s.length - 1) := by
    rw [pyIndex_spec]
    split_ifs <;> first
    | (simp only [Option.some.injEq]; omega)
    | (exfalso; omega)
  constructor
  · simp only [deleteAt, if_pos hlen, hpy, Option.map_some']
    congr 1
    rw [List.dropLast_eq_take, List.eraseIdx_eq_take_drop_succ]
    have hdrop : s.length - 1 + 1 = s.length := by omega
    rw [hdrop, List.drop_length, List.append_nil]
  · rw [List.length_dropLast]
    omega

/-- C10 witness on a concrete two-entry schedule. -/
theorem deleteAt_zero_pops_last_witness :
    deleteAt 0 [hourRule, strikeRule] = some ([hourRule, strikeRule]).dropLast ∧
    ([hourRule, strikeRule]).dropLast.length + 1 = ([hourRule, strikeRule]).length :=
  deleteAt_zero_pops_last [hourRule, strikeRule] (by simp)

/-- C6: for every positive line number the insert-or-replace of the editor
never fails: it appends when the position exceeds the current schedule
length, otherwise it replaces the entry at that position in place, and
whenever pos was at most the length plus one the new rule then sits at
0-based index pos - 1 of the schedule. -/
theorem upsertAt_spec (s : List Rule) (pos : Nat) (r : Rule) (hpos : 1 ≤ pos) :
    (pos > s.length → upsertAt pos r s = s ++ [r]) ∧
    (pos ≤ s.length → upsertAt pos r s = s.set (pos - 1) r) ∧
    (pos ≤ s.length + 1 → (upsertAt pos r s).get? (pos - 1) = some r) := by
  have happ : pos > s.length → upsertAt pos r s = s ++ [r] := by
    intro hgt
    simp only [upsertAt]
    rw [if_pos (by omega : (s.length : Int) ≤ (pos : Int) - 1)]
  have hset : pos ≤ s.length → upsertAt pos r s = s.set (pos - 1) r := by
    intro hle
    simp only [upsertAt]
    rw [if_neg (by omega : ¬ (s.length : Int) ≤ (pos : Int) - 1)]
    have hng : ¬ ((pos : Int) - 1 < 0) := by omega
    have hcast : ((pos : Int) - 1).toNat = pos - 1 := by omega
    rw [pyIndex_spec]
    simp only [if_neg hng]
    rw [if_pos (show (0 : Int) ≤ (pos : Int) - 1 ∧ (pos : Int) - 1 < (s.length : Int)
      from by constructor <;> omega)]
    simp only [Option.map_some', Option.getD_some, hcast]
  refine ⟨happ, hset, ?_⟩
  intro hle1
  rcases Nat.lt_or_ge s.length pos with hgt | hge
  · rw [happ hgt]
    have hidx : pos - 1 = s.length := by omega
    rw [hidx, List.get?_eq_getElem?, List.getElem?_concat_length]
  · rw [hset hge]
    have hlt : pos - 1 < s.length := by omega
    rw [List.get?_eq_getElem?, List.getElem?_set_eq_of_lt r hlt]

/-- C6 witness on a concrete one-entry schedule: line 2 appends, line 1
replaces, and the appended rule sits at index 1. -/
theorem upsertAt_spec_witness :
    upsertAt 2 strikeRule [hourRule] = [hourRule] ++ [strikeRule] ∧
    upsertAt 1 strikeRule [hourRule] = [hourRule].set 0 strikeRule ∧
    (upsertAt 2 strikeRule [hourRule]).get? 1 = some strikeRule :=
  ⟨(upsertAt_spec [hourRule] 2 strikeRule (by decide)).1 (by decide),
   (upsertAt_spec [hourRule] 1 strikeRule (by decide)).2.1 (by decide),
   (upsertAt_spec [hourRule] 2 strikeRule (by decide)).2.2 (by decide)⟩

/-- C7: for every positive line number, the delete command fails exactly when
the schedule is empty or the line number exceeds its length, performing no
deletion in that case, and a successful delete removes exactly the entry at
that position (leaving the entries before it followed by the entries after
it), shrinking the schedule by one. -/
theorem deleteAt_spec (s : List Rule) (pos : Nat) (hpos : 1 ≤ pos) :
    (deleteAt pos s = none ↔ (s = [] ∨ pos > s.length)) ∧
    (pos ≤ s.length →
      deleteAt pos s = some (s.take (pos - 1) ++ s.drop pos) ∧
      (s.take (pos - 1) ++ s.drop pos).length + 1 = s.length) := by
  have hchar : deleteAt pos s =
      if pos ≤ s.length then some (s.eraseIdx (pos - 1)) else none := by
    simp only [deleteAt]
    have hng : ¬ ((pos : Int) - 1 < 0) := by omega
    have hcast : ((pos : Int) - 1).toNat = pos - 1 := by omega
    rw [pyIndex_spec]
    simp only [if_neg hng]
    by_cases hle : pos ≤ s.length
    · rw [if_pos (by omega : 0 < s.length)]
      rw [if_pos (show (0 : Int) ≤ (pos : Int) - 1 ∧ (pos : Int) - 1 < (s.length : Int)
        from by constructor <;> omega)]
      rw [if_pos hle]
      simp only [Option.map_some', hcast]
    · rw [if_neg hle]
      by_cases hz : 0 < s.length
      · rw [if_pos hz]
        rw [if_neg (show ¬ ((0 : Int) ≤ (pos : Int) - 1 ∧ (pos : Int) - 1 < (s.length : Int))
          from by omega)]
        rfl
      · rw [if_neg hz]
  constructor
  · rw [hchar]
    split_ifs with hc
    · constructor
      · intro hno
        simp at hno
      · rintro (he | hgt)
        · subst he
          simp only [List.length_nil] at hc
          omega
        · omega
    · simp only [true_iff]
      exact Or.inr (by omega)
  · intro hle
    rw [hchar, if_pos hle]
    have hsucc : pos - 1 + 1 = pos := by omega
    constructor
    · rw [List.eraseIdx_eq_take_drop_succ, hsucc]
    · simp only [List.length_append, List.length_take, List.length_drop]
      omega

/-- C7 witness on a concrete one-entry schedule: deleting line 2 fails and
leaves the schedule alone, deleting line 1 removes the single entry. -/
theorem deleteAt_spec_witness :
    (deleteAt 2 [hourRule] = none ↔ ([hourRule] = [] ∨ 2 > [hourRule].length)) ∧
    deleteAt 1 [hourRule] = some ([hourRule].take 0 ++ [hourRule].drop 1) ∧
    ([hourRule].take 0 ++ [hourRule].drop 1).length + 1 = [hourRule].length :=
  ⟨(deleteAt_spec [hourRule] 2 (by decide)).1,
   (deleteAt_spec [hourRule] 1 (by decide)).2 (by decide)⟩

/-- C4: the Strike keyword is not case-insensitive end to end. The editor
accepts any capitalization (its keyword test lowercases the field, and the
strike branch rejects nothing even with no file readable) but stores the
original user string, while the playout comparison against the exact string
Strike is case-sensitive; an event entered as STRIKE is therefore routed to
the file branch at playout, which hands the player a file named after the
literal user string instead of the hour-count strike file that the exact
spelling Strike would select. -/
theorem strike_keyword_not_case_insensitive :
    buildEvent "" 0 6 "0-23" "0" "STRIKE" (fun _ => false) =
      some ⟨"", 0, 6, 0, 23, 0, "STRIKE"⟩ ∧
    soundFile ⟨"", 0, 6, 0, 23, 0, "STRIKE"⟩ 12 = file_path ++ "STRIKE" ++ ".mp3" ∧
    soundFile strikeRule 12 = file_path ++ "Strike" ++ "12" ++ ".mp3" := by
  refine ⟨rfl, rfl, rfl⟩

/-- C5: the end-hour range test prints an error but lacks a break, so an
input with end hour 99 still builds and stores an event, violating the
invariant that a stored end hour is at most 23. -/
theorem end_hour_validation_gap :
    buildEvent "" 0 6 "0-99" "0" "Hour" (fun _ => true) =
      some ⟨"", 0, 6, 0, 99, 0, "Hour"⟩ ∧
    (⟨"", 0, 6, 0, 99, 0, "Hour"⟩ : Rule).endHour > 23 := by
  refine ⟨rfl, by decide⟩

/-- C9 counterexample: the playout scan indexes the live shared list rather
than a point-in-time copy; when the editor thread deletes line 1 between the
scan's first and second reads, the second read misses the shrunk list, unlike
iteration over the list as it stood at scan start, so a concurrent delete
does change what the scan observes mid-iteration. -/
theorem liveScan_not_snapshot :
    liveScanReads (fun i => if i = 0 then [hourRule, strikeRule] else [strikeRule]) 2 =
      [some hourRule, none] ∧
    liveScanReads (fun _ => [hourRule, strikeRule]) 2 =
      [some hourRule, some strikeRule] ∧
    ([some hourRule, none] : List (Option Rule)) ≠
      [some hourRule, some strikeRule] := by
  refine ⟨rfl, rfl, by simp⟩

/-- C9 amended: the scheduler has no snapshot; its reads coincide with
iteration over the list as it stood at loop entry exactly when no concurrent
mutation changes the shared list during the scan, every read then succeeding
in order. -/
theorem liveScan_unmutated_reads_snapshot (states : Nat → List Rule)
    (s : List Rule) (hconst : ∀ i, i < s.length → states i = s) :
    liveScanReads states s.length = s.map some := by
  apply List.ext_getElem
  · simp [liveScanReads]
  · intro k h1 h2
    simp only [liveScanReads, List.getElem_map, List.getElem_range]
    simp only [liveScanReads, List.length_map, List.length_range] at h1
    rw [hconst k h1]
    rw [List.get?_eq_getElem?, List.getElem?_eq_getElem h1]

/-- C9 amended witness: an unmutated one-entry schedule is read exactly as
its snapshot. -/
theorem liveScan_unmutated_witness :
    liveScanReads (fun _ => [hourRule]) ([hourRule] : List Rule).length =
      ([hourRule] : List Rule).map some :=
  liveScan_unmutated_reads_snapshot (fun _ => [hourRule]) [hourRule]
    (fun _ _ => rfl)

/-- Peeling one index off the due-plays of an index range. -/
theorem duePlaysBetween_step (t : Timestamp) (s : List Rule) (j i : Nat)
    (hj : j < s.length) (hji : j < i) :
    duePlaysBetween t s j i =
      (if isDue (s.get ⟨j, hj⟩) t then [soundFile (s.get ⟨j, hj⟩) t.hour]
       else []) ++ duePlaysBetween t s (j + 1) i := by
  unfold duePlaysBetween
  rw [List.drop_eq_getElem_cons hj]
  rw [show i - j = (i - (j + 1)) + 1 from by omega]
  rw [List.take_succ_cons, List.filter_cons]
  by_cases hdue : isDue (s.get ⟨j, hj⟩) t = true <;>
    rw [List.get_eq_getElem] at hdue <;> simp [hdue]

/-- Behaviour of the scan when its first play failure is at index i: every
earlier due event plays, then the failure at i is reported with 1-based
position i + 1 and the event, index i is popped, and the scan stops for this
tick. -/
theorem scanAux_fail (t : Timestamp) (canPlay : String → Bool) (s : List Rule)
    (i : Nat) (h : i < s.length)
    (hdue : isDue (s.get ⟨i, h⟩) t = true)
    (hfail : canPlay (soundFile (s.get ⟨i, h⟩) t.hour) = false)
    (hbefore : ∀ j (hj : j < s.length), j < i →
      isDue (s.get ⟨j, hj⟩) t = true →
      canPlay (soundFile (s.get ⟨j, hj⟩) t.hour) = true) :
    ∀ fuel j, j + fuel = s.length → j ≤ i →
      scanAux t canPlay s j fuel =
        (duePlaysBetween t s j i, some (i + 1, s.get ⟨i, h⟩), s.eraseIdx i) := by
  intro fuel
  induction fuel with
  | zero =>
    intro j hj hji
    exact absurd h (by omega)
  | succ fuel ih =>
    intro j hj hji
    have hjlen : j < s.length := by omega
    simp only [scanAux]
    rw [dif_pos hjlen]
    rcases Nat.lt_or_ge j i with hlt | hge
    · by_cases hdj : isDue (s.get ⟨j, hjlen⟩) t = true
      · rw [if_pos hdj, if_pos (hbefore j hjlen hlt hdj)]
        rw [ih (j + 1) (by omega) (by omega)]
        rw [duePlaysBetween_step t s j i hjlen hlt, if_pos hdj]
        rfl
      · rw [if_neg hdj]
        rw [ih (j + 1) (by omega) (by omega)]
        rw [duePlaysBetween_step t s j i hjlen hlt, if_neg hdj]
        rfl
    · have hij : j = i := by omega
      subst hij
      have hdue2 : isDue (s.get ⟨j, hjlen⟩) t = true := hdue
      have hfail2 : canPlay (soundFile (s.get ⟨j, hjlen⟩) t.hour) = false := hfail
      rw [if_pos hdue2,
        if_neg (by rw [List.get_eq_getElem] at hfail2; simp [hfail2])]
      have hz : duePlaysBetween t s j j = [] := by
        unfold duePlaysBetween
        rw [Nat.sub_self]
        rfl
      rw [hz]

/-- C3 amended: when resolving or playing a matched rule fails during a tick
(at index i, all earlier due rules having played), the scheduler reports the
failure with the rule's 1-based position and contents, deletes exactly that
rule from the schedule, and abandons the rest of that tick's scan - rules
after the failed one are not evaluated during that tick; the playout loop
itself continues with the next tick. -/
theorem playTick_failure_reports_deletes_aborts (t : Timestamp)
    (canPlay : String → Bool) (s : List Rule) (i : Nat) (h : i < s.length)
    (hdue : isDue (s.get ⟨i, h⟩) t = true)
    (hfail : canPlay (soundFile (s.get ⟨i, h⟩) t.hour) = false)
    (hbefore : ∀ j (hj : j < s.length), j < i →
      isDue (s.get ⟨j, hj⟩) t = true →
      canPlay (soundFile (s.get ⟨j, hj⟩) t.hour) = true) :
    playTick t canPlay s =
      (duePlaysBetween t s 0 i, some (i + 1, s.get ⟨i, h⟩), s.eraseIdx i) :=
  scanAux_fail t canPlay s i h hdue hfail hbefore s.length 0 (by omega)
    (by omega)

/-- C3 counterexample: with two due events where the first fails to play and
the second could play, the tick reports and deletes the first event but plays
nothing at all: the rule after the failed one is not evaluated during that
tick, so evaluation of the snapshot does not continue past the failure. -/
theorem playTick_abandons_rest_after_failure :
    playTick ⟨"", 0, 12, 0⟩ (fun f => f != file_path ++ "Gone.mp3")
        [⟨"", 0, 6, 0, 23, 0, "Gone"⟩, ⟨"", 0, 6, 0, 23, 0, "Hour"⟩] =
      ([], some (1, ⟨"", 0, 6, 0, 23, 0, "Gone"⟩),
       [⟨"", 0, 6, 0, 23, 0, "Hour"⟩]) ∧
    isDue ⟨"", 0, 6, 0, 23, 0, "Hour"⟩ ⟨"", 0, 12, 0⟩ = true ∧
    (fun f => f != file_path ++ "Gone.mp3")
      (soundFile ⟨"", 0, 6, 0, 23, 0, "Hour"⟩ 12) = true := by
  refine ⟨rfl, rfl, rfl⟩

/-- C3 amended witness: the failing first event of a concrete two-event
schedule is reported and deleted, with no earlier plays. -/
theorem playTick_failure_witness :
    playTick ⟨"", 0, 12, 0⟩ (fun f => f != file_path ++ "Gone.mp3")
        [⟨"", 0, 6, 0, 23, 0, "Gone"⟩, ⟨"", 0, 6, 0, 23, 0, "Hour"⟩] =
      (duePlaysBetween ⟨"", 0, 12, 0⟩
          [⟨"", 0, 6, 0, 23, 0, "Gone"⟩, ⟨"", 0, 6, 0, 23, 0, "Hour"⟩] 0 0,
       some (1, ([⟨"", 0, 6, 0, 23, 0, "Gone"⟩,
          ⟨"", 0, 6, 0, 23, 0, "Hour"⟩] : List Rule).get ⟨0, by decide⟩),
       ([⟨"", 0, 6, 0, 23, 0, "Gone"⟩,
          ⟨"", 0, 6, 0, 23, 0, "Hour"⟩] : List Rule).eraseIdx 0) :=
  playTick_failure_reports_deletes_aborts ⟨"", 0, 12, 0⟩
    (fun f => f != file_path ++ "Gone.mp3")
    [⟨"", 0, 6, 0, 23, 0, "Gone"⟩, ⟨"", 0, 6, 0, 23, 0, "Hour"⟩] 0 (by decide)
    (by decide) (by decide) (fun j hj hlt => absurd hlt (by omega))

end Carillon
